import Mathlib

/-!
Verification development for the RoyalRoad scraping pipeline
(`src/scraper/scraper/`): shallow embedding of the field extractors
(`loaders/royal_road_fiction_loader.py`, `loaders/royal_road_fiction_review_loader.py`),
the spider orchestration (`spiders/royal_road.py`) and the Neo4j persistence
routing (`pipelines.py`), together with theorems settling the specified
behaviour of each component.

Conventions of the embedding:
* Python strings are `String` / `List Char`; a Python value that may be
  `None` is an `Option`.
* Python floats produced by the extractors are exact decimals
  (`NN / 10.0` star ratings, site-rendered decimal averages); they are
  modelled as `ℚ`.
* `re.search` with the concrete patterns used by the code
  (`star-(\d+)`, `review-(\d+)`, `/profile/(\d+)`, `/fiction/(\d+)/`)
  is modelled by explicit left-to-right scanning functions that find the
  first occurrence of the literal prefix followed by a maximal digit run.
* Library collaborators (`urllib.parse.urlparse`, `w3lib.html.remove_tags`,
  CPython `int()` / `float()` / `str.strip()`) are modelled by small
  executable functions documented at their definition sites; the model of
  each covers the input shapes the scraper feeds it.
-/

/-! ### Character and digit utilities -/

/-- Numeric value of an ASCII digit character. -/
def digitVal (c : Char) : Nat := c.toNat - 48

/-- Value of a big-endian list of ASCII digit characters (`['4','5'] ↦ 45`). -/
def digitsVal (l : List Char) : Nat := l.foldl (fun a c => a * 10 + digitVal c) 0

/-- ASCII digit character for a value `0 ≤ n ≤ 9`. -/
def digitChar (n : Nat) : Char :=
  if n = 0 then '0' else if n = 1 then '1' else if n = 2 then '2' else if n = 3 then '3'
  else if n = 4 then '4' else if n = 5 then '5' else if n = 6 then '6' else if n = 7 then '7'
  else if n = 8 then '8' else '9'

/-- The whitespace characters of Python's `\s` / `str.strip()` in the ASCII
range (the scraper only ever feeds ASCII whitespace). -/
def isPyWs (c : Char) : Bool :=
  c == ' ' || c == '\t' || c == '\n' || c == '\r' || c == '\x0b' || c == '\x0c'

/-- Strip `isPyWs` characters from both ends of a character list
(model of Python `str.strip()` on the scraper's inputs). -/
def stripEnds (l : List Char) : List Char :=
  ((l.dropWhile isPyWs).reverse.dropWhile isPyWs).reverse

/-- `patMatch p l` holds when `p` is a prefix of `l`. -/
def patMatch : List Char → List Char → Bool
  | [], _ => true
  | _ :: _, [] => false
  | p :: ps, c :: cs => p == c && patMatch ps cs

/-! ### Decimal rendering of integers (model of Python `str()` on `int`) -/

/-- Fuelled big-endian digit expansion; `fuel ≥ n` suffices. -/
def natDigitsAux : Nat → Nat → List Char
  | 0, _ => []
  | _, 0 => []
  | fuel + 1, n + 1 =>
    natDigitsAux fuel ((n + 1) / 10) ++ [digitChar ((n + 1) % 10)]

/-- Decimal digit characters of a natural number (`45 ↦ ['4','5']`). -/
def natDigits (n : Nat) : List Char :=
  if n = 0 then ['0'] else natDigitsAux (n + 1) n

/-- Model of Python `str()` applied to a nonnegative `int`. -/
def strOfNat (n : Nat) : String := ⟨natDigits n⟩

/-- Model of Python `str()` applied to an `int`. -/
def strOfInt (i : Int) : String :=
  if i < 0 then ⟨'-' :: natDigits i.natAbs⟩ else ⟨natDigits i.toNat⟩

/-! ### Model of CPython `int()` (as used via `parse_int`)

`int(s)` strips surrounding whitespace, accepts an optional sign, then a
nonempty digit string in which single underscores may separate digits; any
other character (for example a comma) raises `ValueError`. -/

/-- Tail of the CPython integer-literal grammar: digits with single
underscores allowed only between digits. -/
def underscoreTail : List Char → Bool
  | [] => true
  | c :: cs =>
    if c = '_' then
      match cs with
      | [] => false
      | d :: cs2 => d.isDigit && underscoreTail cs2
    else c.isDigit && underscoreTail cs

/-- Whole CPython digit-group grammar: nonempty, starts with a digit. -/
def underscoreDigitsOk : List Char → Bool
  | [] => false
  | c :: cs => c.isDigit && underscoreTail cs

/-- Signless/signed core of `int()` after whitespace stripping. -/
def pyIntCore (l : List Char) : Option Int :=
  if l.head? = some '+' then
    if underscoreDigitsOk l.tail then some ((digitsVal (l.tail.filter Char.isDigit) : Nat) : Int)
    else none
  else if l.head? = some '-' then
    if underscoreDigitsOk l.tail then some (-((digitsVal (l.tail.filter Char.isDigit) : Nat) : Int))
    else none
  else if underscoreDigitsOk l then some ((digitsVal (l.filter Char.isDigit) : Nat) : Int)
  else none

/-- Model of CPython `int(s)`: `some` the parsed value, `none` for
`ValueError`. -/
def pyInt (l : List Char) : Option Int := pyIntCore (stripEnds l)

/-! ### Model of CPython `float()` on plain decimal notation

The scraper feeds `float()` site-rendered decimals such as `"4.5"`; the
model covers `[sign] digits [. digits]` and `[sign] . digits` and returns
the exact rational value. -/

/-- Unsigned decimal core of `float()`. -/
def pyFloatCore (l : List Char) : Option ℚ :=
  if l.dropWhile Char.isDigit = [] then
    if l.takeWhile Char.isDigit = [] then none
    else some ((digitsVal (l.takeWhile Char.isDigit) : Nat) : ℚ)
  else if (l.dropWhile Char.isDigit).head? = some '.' then
    if (l.dropWhile Char.isDigit).tail.dropWhile Char.isDigit = [] ∧
        (l.takeWhile Char.isDigit ≠ [] ∨
          (l.dropWhile Char.isDigit).tail.takeWhile Char.isDigit ≠ []) then
      some (((digitsVal (l.takeWhile Char.isDigit) : Nat) : ℚ) +
        ((digitsVal ((l.dropWhile Char.isDigit).tail.takeWhile Char.isDigit) : Nat) : ℚ) /
          ((10 : ℚ) ^ ((l.dropWhile Char.isDigit).tail.takeWhile Char.isDigit).length))
    else none
  else none

/-- Model of CPython `float(s)` on plain decimal notation. -/
def pyFloat (l : List Char) : Option ℚ :=
  if (stripEnds l).head? = some '+' then pyFloatCore (stripEnds l).tail
  else if (stripEnds l).head? = some '-' then (pyFloatCore (stripEnds l).tail).map Neg.neg
  else pyFloatCore (stripEnds l)

/-! ### Scanning models of the `re.search` patterns used by the code -/

/-- One attempt of `re.search(pat ++ "(\d+)")` at the current position:
`pat` must be a prefix, followed by at least one digit; the captured group
is the maximal digit run. -/
def scanHere (pat l : List Char) : Option Nat :=
  if patMatch pat l then
    if (l.drop pat.length).takeWhile Char.isDigit = [] then none
    else some (digitsVal ((l.drop pat.length).takeWhile Char.isDigit))
  else none

/-- Left-to-right search loop of `re.search(pat ++ "(\d+)")`. -/
def scanPat (pat : List Char) : List Char → Option Nat
  | [] => none
  | c :: cs =>
    match scanHere pat (c :: cs) with
    | some n => some n
    | none => scanPat pat cs

/-- One attempt of `re.search(pat ++ "(\d+)/")`: as `scanHere` but the
digit run must additionally be followed by a slash. -/
def scanHereSlash (pat l : List Char) : Option Nat :=
  if patMatch pat l then
    if (l.drop pat.length).takeWhile Char.isDigit ≠ [] ∧
        ((l.drop pat.length).dropWhile Char.isDigit).head? = some '/' then
      some (digitsVal ((l.drop pat.length).takeWhile Char.isDigit))
    else none
  else none

/-- Left-to-right search loop of `re.search(pat ++ "(\d+)/")`. -/
def scanPatSlash (pat : List Char) : List Char → Option Nat
  | [] => none
  | c :: cs =>
    match scanHereSlash pat (c :: cs) with
    | some n => some n
    | none => scanPatSlash pat cs

/-- Literal part of the pattern `star-(\d+)` (`parse_star_rating`). -/
def starPat : List Char := ['s', 't', 'a', 'r', '-']

/-- Literal part of the pattern `review-(\d+)` (`extract_review_id_from_id`). -/
def reviewPat : List Char := ['r', 'e', 'v', 'i', 'e', 'w', '-']

/-- Literal part of the pattern `/profile/(\d+)` (`extract_author_id_from_url`). -/
def profilePat : List Char := ['/', 'p', 'r', 'o', 'f', 'i', 'l', 'e', '/']

/-- Literal part of the pattern `/fiction/(\d+)/` (`extract_fiction_id_from_url`). -/
def fictionPat : List Char := ['/', 'f', 'i', 'c', 't', 'i', 'o', 'n', '/']

/-! ### Model of `urllib.parse.urlparse(...).path`

The scraper only ever parses absolute `http(s)://netloc/path` URLs (and, in
the loader, the already-relative `href` values beginning with `/`).  The
model finds a `"://"` separator occurring before any `/`, drops the netloc
up to the first following `/`, and cuts the path at `?` or `#`; a URL with
no scheme separator is treated as a bare path. -/

/-- Locate `"://"` (scheme separator) before any `/`; return what follows. -/
def schemeSplit : List Char → Option (List Char)
  | [] => none
  | c :: cs =>
    if c = '/' then none
    else if c = ':' ∧ cs.take 2 = ['/', '/'] then some (cs.drop 2)
    else schemeSplit cs

/-- Path component of a URL (model of `urlparse(url).path`). -/
def urlPath (url : String) : List Char :=
  match schemeSplit url.data with
  | some rest =>
    ((rest.dropWhile (fun c => !(c == '/'))).takeWhile (fun c => !(c == '?' || c == '#')))
  | none => url.data.takeWhile (fun c => !(c == '?' || c == '#'))

/-! ### Field extractors (`loaders/royal_road_fiction_loader.py`,
`loaders/royal_road_fiction_review_loader.py`)

Each is a total function on `Option String`, mirroring the Python
functions' `if not value: return None` guards and try/except-to-`None`
behaviour. -/

/-- `strip_whitespace` (both loader modules): strip surrounding whitespace,
passing falsy input through unchanged. -/
def strip_whitespace (s : String) : String :=
  if s = "" then s else ⟨stripEnds s.data⟩

/-- `parse_int` of `royal_road_fiction_loader.py`: removes every comma and
whitespace character (`re.sub(r"[,\s]", "", value)`) and then applies
`int()`; `None`/empty input and parse failures yield `None`. -/
def parse_int (v : Option String) : Option Int :=
  match v with
  | none => none
  | some s =>
    if s = "" then none
    else pyInt (s.data.filter (fun c => !(c == ',' || isPyWs c)))

/-- `parse_int` of `royal_road_fiction_review_loader.py`: a plain `int()`
parse with no separator stripping. -/
def parse_int_review (v : Option String) : Option Int :=
  match v with
  | none => none
  | some s => if s = "" then none else pyInt s.data

/-- `parse_float` (fiction loader): plain `float()` parse. -/
def parse_float (v : Option String) : Option ℚ :=
  match v with
  | none => none
  | some s => if s = "" then none else pyFloat s.data

/-- `parse_star_rating` (review loader): decode the first `star-NN`
CSS-class occurrence as `NN / 10.0`. -/
def parse_star_rating (v : Option String) : Option ℚ :=
  match v with
  | none => none
  | some s =>
    if s = "" then none
    else (scanPat starPat s.data).map (fun n => ((n : Nat) : ℚ) / 10)

/-- `extract_review_id_from_id` (review loader): numeric suffix of an
element identifier of the form `review-{digits}`. -/
def extract_review_id_from_id (v : Option String) : Option Nat :=
  match v with
  | none => none
  | some s => if s = "" then none else scanPat reviewPat s.data

/-- `extract_author_id_from_url` (both loaders): `/profile/(\d+)` searched
in the URL's path component. -/
def extract_author_id_from_url (v : Option String) : Option Nat :=
  match v with
  | none => none
  | some s => if s = "" then none else scanPat profilePat (urlPath s)

/-- `extract_fiction_id_from_url` (fiction loader): `/fiction/(\d+)/`
searched in the URL's path component — note the pattern requires a slash
after the digit run. -/
def extract_fiction_id_from_url (v : Option String) : Option Nat :=
  match v with
  | none => none
  | some s => if s = "" then none else scanPatSlash fictionPat (urlPath s)

/-- `RoyalRoadSpider._extract_fiction_id_from_url` (spider): same pattern
`/fiction/(\d+)/` over the URL's path; the `try/except` yields `None` on
any failure. -/
def spider_extract_fiction_id_from_url (url : String) : Option Nat :=
  scanPatSlash fictionPat (urlPath url)

/-- `parse_datetime_to_iso` (review loader): validate non-falsy and strip;
the attribute is passed through without reformatting. -/
def parse_datetime_to_iso (v : Option String) : Option String :=
  match v with
  | none => none
  | some s => if s = "" then none else some (strip_whitespace s)

/-- Literal part of `window\.fictionId\s*=\s*(\d+);`
(`extract_fiction_id_from_script`). -/
def wfiPat : List Char :=
  ['w', 'i', 'n', 'd', 'o', 'w', '.', 'f', 'i', 'c', 't', 'i', 'o', 'n', 'I', 'd']

/-- Digits-then-semicolon tail of the `window.fictionId` pattern. -/
def wfiAfterEq (r2 : List Char) : Option Nat :=
  if r2.takeWhile Char.isDigit ≠ [] ∧ (r2.dropWhile Char.isDigit).head? = some ';' then
    some (digitsVal (r2.takeWhile Char.isDigit))
  else none

/-- One attempt of the `window.fictionId = {digits};` pattern. -/
def wfiHere (l : List Char) : Option Nat :=
  if patMatch wfiPat l then
    if ((l.drop wfiPat.length).dropWhile isPyWs).head? = some '=' then
      wfiAfterEq (((l.drop wfiPat.length).dropWhile isPyWs).tail.dropWhile isPyWs)
    else none
  else none

/-- Search loop for the `window.fictionId` assignment pattern. -/
def wfiScan : List Char → Option Nat
  | [] => none
  | c :: cs =>
    match wfiHere (c :: cs) with
    | some n => some n
    | none => wfiScan cs

/-- `extract_fiction_id_from_script` (fiction loader): first script text
containing a `window.fictionId = {digits};` assignment. -/
def extract_fiction_id_from_script (scripts : List String) : Option Nat :=
  scripts.findSome? (fun s => wfiScan s.data)

/-- `strip_html` (both loaders): model of `w3lib.html.remove_tags`
followed by `str.strip()` — drops `<...>` spans and keeps text content. -/
def removeTagsAux : Bool → List Char → List Char
  | _, [] => []
  | true, c :: cs => if c = '>' then removeTagsAux false cs else removeTagsAux true cs
  | false, c :: cs => if c = '<' then removeTagsAux true cs else c :: removeTagsAux false cs

/-- `strip_html`: remove markup, retain text content, then trim. -/
def strip_html (s : String) : String :=
  if s = "" then s else ⟨stripEnds (removeTagsAux false s.data)⟩

/-! ### Itemloaders processor semantics

`ItemLoader` collects, per field, the concatenation of the input-processed
values of every `add_css`/`add_value` call; `load_item` applies the output
processor to the collected list and sets the field only when the result is
usable.  `TakeFirst` returns the first collected value that is neither
`None` nor the empty string; `Join("\n")` joins every collected value;
`Identity` returns the collected list.  An unset field and a field whose
output processor produced `None` are both observed as `None` by every
consumer (`ItemAdapter.get`, `item.get`), so both are modelled as `none`. -/

/-- `TakeFirst()` over collected strings: first non-empty value. -/
def takeFirstStr (vs : List String) : Option String := vs.find? (fun v => !(v == ""))

/-- `Join("\n")` over collected strings; the field stays unset when
nothing was collected. -/
def joinFrags (vs : List String) : Option String :=
  if vs = [] then none else some (String.intercalate "\n" vs)

/-- Collected-value list of a single guarded `add_value` call. -/
def optToList : Option α → List α
  | some a => [a]
  | none => []

/-! ### Python truthiness on item field values -/

/-- Truthiness of an optional string (`None` and `""` are falsy). -/
def strTruthy : Option String → Bool
  | none => false
  | some s => !(s == "")

/-- Truthiness of an optional nonnegative integer (`None` and `0` falsy). -/
def natTruthy : Option Nat → Bool
  | none => false
  | some n => !(n == 0)

/-- Truthiness of an optional integer (`None` and `0` falsy). -/
def intTruthy : Option Int → Bool
  | none => false
  | some i => !(i == 0)

/-- Truthiness of an optional rational (`None` and `0.0` falsy). -/
def ratTruthy : Option ℚ → Bool
  | none => false
  | some q => decide (q ≠ 0)

/-! ### Items (`items/royal_road_fiction.py`, `items/royal_road_fiction_review.py`)

`RoyalRoadFictionItem` declares exactly the fields below plus the
pipeline-set `scraped_at`/`version` metadata; it declares **no**
`author_id` field.  `RoyalRoadFictionReviewItem` declares all review
fields including `author_id` and `fiction_id`. -/

/-- `RoyalRoadFictionItem`: core data fields (metadata fields are set only
by the pipeline boundary and never by the extractor). -/
structure FictionItem where
  title : Option String := none
  author : Option String := none
  url : Option String := none
  description : Option String := none
  tags : Option (List String) := none
  rating : Option ℚ := none
  follower_count : Option Int := none
  fiction_id : Option Int := none
deriving DecidableEq, Repr

/-- `RoyalRoadFictionReviewItem`: core data fields (`by_` models the
Python field named `by`, which is a reserved word in Lean). -/
structure ReviewItem where
  review_id : Option Nat := none
  review_title : Option String := none
  review : Option String := none
  by_ : Option String := none
  author_id : Option Nat := none
  reviewed_at_time : Option String := none
  reviewed_at_chapter : Option String := none
  overall_rating : Option ℚ := none
  fiction_id : Option Int := none
  style_rating : Option ℚ := none
  story_rating : Option ℚ := none
  grammar_rating : Option ℚ := none
  character_rating : Option ℚ := none
deriving DecidableEq, Repr

/-! ### Pages and fragments as seen through the HTML query collaborator

Extraction rules are selector+attribute / selector+text pairs evaluated by
the external HTML query collaborator; a page (or review fragment) is
therefore modelled by the raw string lists each selector yields, listed in
the order the loaders query them. -/

/-- One `.review` element, described by the raw results of each scoped
selector used by `RoyalRoadFictionReviewLoader.populate_from_review`. -/
structure ReviewFragment where
  /-- `selector.attrib.get("id", "")` on the review element. -/
  idAttr : String := ""
  /-- `.review-header h4.bold.font-blue-dark::text` matches. -/
  titleTexts : List String := []
  /-- `.review-content .review-inner *::text` matches. -/
  reviewTexts : List String := []
  /-- `.review-meta a[href^='/profile/']::text` matches. -/
  byTexts : List String := []
  /-- first `.review-meta a[href^='/profile/']::attr(href)` match. -/
  authorHref : Option String := none
  /-- `time[datetime]::attr(datetime)` matches. -/
  timeAttrs : List String := []
  /-- `.review-header a[href^='/fiction/chapter/']::text` matches. -/
  chapterTexts : List String := []
  /-- first `.overall-score-container .star::attr(class)` match. -/
  overallStarClass : Option String := none
  /-- star class of the advanced score labelled `Style Score`. -/
  styleStarClass : Option String := none
  /-- star class of the advanced score labelled `Story Score`. -/
  storyStarClass : Option String := none
  /-- star class of the advanced score labelled `Grammar Score`. -/
  grammarStarClass : Option String := none
  /-- star class of the advanced score labelled `Character Score`. -/
  characterStarClass : Option String := none
deriving DecidableEq, Repr

/-- A fetched fiction page, described by its URL and the raw results of
each selector used by `RoyalRoadFictionLoader.populate_from_response` and
`RoyalRoadSpider.parse`. -/
structure Page where
  /-- `response.url`. -/
  url : String := ""
  /-- `meta[property="twitter:title"]::attr(content)` matches. -/
  twitterTitle : List String := []
  /-- `meta[property="og:title"]::attr(content)` matches. -/
  ogTitle : List String := []
  /-- `h1.font-white::text` matches. -/
  h1Title : List String := []
  /-- `.fic-title h1::text` matches. -/
  ficTitleH1 : List String := []
  /-- `meta[property="books:author"]::attr(content)` matches. -/
  booksAuthor : List String := []
  /-- `.fic-title h4 a.font-white::text` matches. -/
  ficTitleAuthor : List String := []
  /-- `.portlet-body a.font-red[href^="/profile/"]::text` matches. -/
  portletAuthor : List String := []
  /-- first `.portlet-body a.font-red[href^="/profile/"]::attr(href)` match. -/
  portletAuthorHref : Option String := none
  /-- first `.fic-title h4 a.font-white[href^="/profile/"]::attr(href)` match. -/
  ficTitleAuthorHref : Option String := none
  /-- `link[rel="canonical"]::attr(href)` matches. -/
  canonical : List String := []
  /-- `meta[property="og:url"]::attr(content)` matches. -/
  ogUrl : List String := []
  /-- `.description .hidden-content *::text` matches. -/
  descHidden : List String := []
  /-- `.description::text` matches. -/
  descText : List String := []
  /-- `meta[property="og:description"]::attr(content)` matches. -/
  ogDescription : List String := []
  /-- `.tags a.fiction-tag::text` matches. -/
  tagsSel : List String := []
  /-- `meta[property="books:rating:value"]::attr(content)` matches. -/
  ratingSel : List String := []
  /-- follower-count XPath (`li` following the `Followers` label) matches. -/
  followerSel : List String := []
  /-- `script::text` matches. -/
  scripts : List String := []
  /-- `.review` elements of the page, in document order. -/
  reviews : List ReviewFragment := []
  /-- first `//a[contains(., 'Next')]/@href` match. -/
  nextLink : Option String := none
deriving DecidableEq, Repr

/-! ### `RoyalRoadFictionReviewLoader` (`populate_from_review` + `load_item`) -/

/-- `RoyalRoadFictionReviewLoader`: build one review item from a review
fragment; `fidStr` is the value passed by the spider's
`loader.add_value("fiction_id", str(fiction_id))` call.  Each field mirrors
the loader's input processor (`MapCompose`, dropping `None` results) and
output processor (`TakeFirst` / `Join("\n")`). -/
def load_review (fr : ReviewFragment) (fidStr : String) : ReviewItem :=
  { review_id :=
      (if fr.idAttr ≠ "" then
        optToList (extract_review_id_from_id (some (strip_whitespace fr.idAttr)))
      else []).head?
  , review_title := takeFirstStr (fr.titleTexts.map strip_whitespace)
  , review := joinFrags (fr.reviewTexts.map (fun v => strip_whitespace (strip_html v)))
  , by_ := takeFirstStr (fr.byTexts.map strip_whitespace)
  , author_id :=
      (match fr.authorHref with
       | some u =>
         if u ≠ "" then optToList (extract_author_id_from_url (some (strip_whitespace u)))
         else []
       | none => []).head?
  , reviewed_at_time :=
      takeFirstStr (fr.timeAttrs.filterMap (fun v => parse_datetime_to_iso (some (strip_whitespace v))))
  , reviewed_at_chapter := takeFirstStr (fr.chapterTexts.map strip_whitespace)
  , overall_rating :=
      (match fr.overallStarClass with
       | some u =>
         if u ≠ "" then optToList (parse_star_rating (some (strip_whitespace u))) else []
       | none => []).head?
  , fiction_id := (optToList (parse_int_review (some (strip_whitespace fidStr)))).head?
  , style_rating :=
      (match fr.styleStarClass with
       | some u =>
         if u ≠ "" then optToList (parse_star_rating (some (strip_whitespace u))) else []
       | none => []).head?
  , story_rating :=
      (match fr.storyStarClass with
       | some u =>
         if u ≠ "" then optToList (parse_star_rating (some (strip_whitespace u))) else []
       | none => []).head?
  , grammar_rating :=
      (match fr.grammarStarClass with
       | some u =>
         if u ≠ "" then optToList (parse_star_rating (some (strip_whitespace u))) else []
       | none => []).head?
  , character_rating :=
      (match fr.characterStarClass with
       | some u =>
         if u ≠ "" then optToList (parse_star_rating (some (strip_whitespace u))) else []
       | none => []).head? }

/-! ### `RoyalRoadFictionLoader` (`populate_from_response` + `load_item`) -/

/-- Input-processed collected values of the `description` field: every
fragment of all three `add_css` calls, in call order (the `ItemLoader`
accumulates across calls; no call supersedes another). -/
def descFragments (pg : Page) : List String :=
  (pg.descHidden ++ pg.descText ++ pg.ogDescription).map (fun v => strip_whitespace (strip_html v))

/-- Collected `author_id` values: the loader looks up the author profile
href (portlet body first, then fic-title fallback, each guarded by Python
truthiness) and feeds it through `MapCompose(strip_whitespace,
extract_author_id_from_url)`. -/
def fic_author_id_vals (pg : Page) : List Nat :=
  let authorUrl : Option String :=
    match pg.portletAuthorHref with
    | some u => if u ≠ "" then some u else pg.ficTitleAuthorHref
    | none => pg.ficTitleAuthorHref
  match authorUrl with
  | some u =>
    if u ≠ "" then optToList (extract_author_id_from_url (some (strip_whitespace u))) else []
  | none => []

/-- `url` output: canonical link then `og:url` (TakeFirst), falling back
to `response.url` appended by `load_item` when the collected output is
falsy. -/
def fic_url (pg : Page) : Option String :=
  let urlVals := (pg.canonical ++ pg.ogUrl).map strip_whitespace
  match takeFirstStr urlVals with
  | some u => some u
  | none => takeFirstStr (urlVals ++ [strip_whitespace pg.url])

/-- `fiction_id` resolution in `load_item`: URL pattern first, then the
inline `window.fictionId` script assignment, each guarded by Python
truthiness; the chosen id is re-rendered by `str()` and fed through
`MapCompose(strip_whitespace, parse_int)`. -/
def fic_fiction_id (pg : Page) : Option Int :=
  let fid1 := extract_fiction_id_from_url (some pg.url)
  let fidNat : Option Nat :=
    if natTruthy fid1 then fid1
    else
      let fid2 := extract_fiction_id_from_script pg.scripts
      if natTruthy fid2 then fid2 else none
  (match fidNat with
   | some n => optToList (parse_int (some (strip_whitespace (strOfNat n))))
   | none => []).head?

/-- `RoyalRoadFictionLoader`: build the fiction item from a page.
`RoyalRoadFictionItem` declares no `author_id` field, so when the loader
collected any `author_id` value, `load_item`'s write of that field raises
`KeyError` (Scrapy items reject undeclared fields); the error is modelled
as `Except.error`. -/
def load_fiction (pg : Page) : Except String FictionItem :=
  if fic_author_id_vals pg ≠ [] then
    Except.error "KeyError: RoyalRoadFictionItem does not support field: author_id"
  else
    Except.ok
      { title :=
          takeFirstStr ((pg.twitterTitle ++ pg.ogTitle ++ pg.h1Title ++ pg.ficTitleH1).map strip_whitespace)
      , author :=
          takeFirstStr ((pg.booksAuthor ++ pg.ficTitleAuthor ++ pg.portletAuthor).map strip_whitespace)
      , url := fic_url pg
      , description := joinFrags (descFragments pg)
      , tags :=
          (if pg.tagsSel.map strip_whitespace = [] then none else some (pg.tagsSel.map strip_whitespace))
      , rating := (pg.ratingSel.filterMap (fun v => parse_float (some (strip_whitespace v)))).head?
      , follower_count :=
          (pg.followerSel.filterMap (fun v => parse_int (some (strip_whitespace v)))).head?
      , fiction_id := fic_fiction_id pg }

/-! ### Spider orchestration (`spiders/royal_road.py`) -/

/-- `PageType` enumeration of the spider. -/
inductive PageType where
  | fiction : PageType
  | author : PageType
deriving DecidableEq, Repr

/-- `RoyalRoadSpider._determine_page_type`: split the URL path on `/`,
drop empty parts; `profile`/`user` with at least two parts is AUTHOR;
everything else (including the explicit `fiction` check and the
fall-through default) is FICTION. -/
def splitSlash : List Char → List (List Char)
  | [] => [[]]
  | c :: cs =>
    if c = '/' then [] :: splitSlash cs
    else
      match splitSlash cs with
      | [] => [[c]]
      | p :: ps => (c :: p) :: ps

/-- `RoyalRoadSpider._determine_page_type`. -/
def determine_page_type (url : String) : PageType :=
  match (splitSlash (urlPath url)).filter (fun p => !p.isEmpty) with
  | [] => PageType.fiction
  | p0 :: rest =>
    if (p0 = ['p', 'r', 'o', 'f', 'i', 'l', 'e'] ∨ p0 = ['u', 's', 'e', 'r']) ∧ rest.length ≥ 1 then
      PageType.author
    else PageType.fiction

/-- Spider-side required-field validation of one loaded review
(`_extract_reviews_from_page`): every field of the `required_fields` list
must be Python-truthy (`not item.get(field)` skips the review). -/
def reviewRequiredOk (it : ReviewItem) : Bool :=
  natTruthy it.review_id && strTruthy it.review_title && strTruthy it.review &&
  strTruthy it.by_ && natTruthy it.author_id && strTruthy it.reviewed_at_time &&
  strTruthy it.reviewed_at_chapter && ratTruthy it.overall_rating && intTruthy it.fiction_id

/-- `RoyalRoadSpider._extract_reviews_from_page`: load each `.review`
fragment, inject `str(fiction_id)`, and yield only the items passing the
required-field validation. -/
def extract_reviews_from_page (frags : List ReviewFragment) (fiction_id : Int) : List ReviewItem :=
  frags.filterMap (fun fr =>
    if reviewRequiredOk (load_review fr (strOfInt fiction_id)) then
      some (load_review fr (strOfInt fiction_id))
    else none)

/-- One value yielded by `RoyalRoadSpider.parse`: a fiction item, a review
item, a pagination follow-request carrying `fiction_id` meta, or the
literal Python `None` yielded for non-fiction pages. -/
inductive ParseOut where
  | fictionItem : FictionItem → ParseOut
  | reviewItem : ReviewItem → ParseOut
  | request : String → Int → ParseOut
  | noneVal : ParseOut
deriving DecidableEq, Repr

/-- `RoyalRoadSpider.parse`: classify the page; on FICTION yield the
loaded item, then (when `fiction_id` is truthy) the validated reviews and
a pagination request when a truthy next link exists; on any other page
type yield the single value `None`.  The Scrapy-level effect of an
uncaught extraction exception (the fiction loader's `KeyError`) is the
`Except.error` case. -/
def parse (pg : Page) : Except String (List ParseOut) :=
  if determine_page_type pg.url = PageType.fiction then
    match load_fiction pg with
    | Except.error e => Except.error e
    | Except.ok item =>
      match item.fiction_id with
      | some fid =>
        if fid ≠ 0 then
          Except.ok (ParseOut.fictionItem item ::
            ((extract_reviews_from_page pg.reviews fid).map ParseOut.reviewItem ++
              (match pg.nextLink with
               | some l => if l ≠ "" then [ParseOut.request l fid] else []
               | none => [])))
        else Except.ok [ParseOut.fictionItem item]
      | none => Except.ok [ParseOut.fictionItem item]
  else Except.ok [ParseOut.noneVal]

/-! ### Persistence layer (`pipelines.py`, `Neo4jPipeline`) -/

/-- Dispatch target chosen by `Neo4jPipeline.process_item`. -/
inductive Route where
  | fictionPath : Route
  | reviewPath : Route
  | unknownPath : Route
deriving DecidableEq, Repr

/-- Routing logic of `Neo4jPipeline.process_item`: Scrapy items are
dict-like, so the pipeline dispatches on identifying fields —
`adapter.get("fiction_id") is not None` is tested **first**, and only in
its `elif` is `adapter.get("review_id") is not None` tested. -/
def process_item_route (fiction_id : Option Int) (review_id : Option Nat) : Route :=
  if fiction_id.isSome then Route.fictionPath
  else if review_id.isSome then Route.reviewPath
  else Route.unknownPath

/-- A property value written to the graph store (string, integer,
rational, or list-of-strings field payload). -/
inductive PropValue where
  | str : String → PropValue
  | int : Int → PropValue
  | nat : Nat → PropValue
  | rat : ℚ → PropValue
  | strs : List String → PropValue
deriving DecidableEq, Repr

/-- Fields excluded by `Neo4jPipeline._extract_fiction_properties`. -/
def fiction_exclude_fields : List String := ["scraped_at", "version", "fiction_id", "author_id"]

/-- Fields excluded by `Neo4jPipeline._extract_review_properties`. -/
def review_exclude_fields : List String :=
  ["scraped_at", "version", "review_id", "author_id", "fiction_id"]

/-- Fields declared by `RoyalRoadFictionItem` (the only keys
`ItemAdapter.items()` can yield for a fiction record). -/
def fiction_item_fields : List String :=
  ["title", "author", "url", "description", "tags", "rating", "follower_count", "fiction_id",
   "scraped_at", "version"]

/-- Fields declared by `RoyalRoadFictionReviewItem`. -/
def review_item_fields : List String :=
  ["review_id", "review_title", "review", "by", "author_id", "reviewed_at_time",
   "reviewed_at_chapter", "overall_rating", "fiction_id", "style_rating", "story_rating",
   "grammar_rating", "character_rating", "scraped_at", "version"]

/-- `Neo4jPipeline._extract_fiction_properties`: keep each
`adapter.items()` entry whose key is not excluded and whose value is not
`None`. -/
def extract_fiction_properties (items : List (String × Option PropValue)) :
    List (String × PropValue) :=
  items.filterMap (fun kv =>
    if kv.1 ∈ fiction_exclude_fields then none
    else
      match kv.2 with
      | some v => some (kv.1, v)
      | none => none)

/-- `Neo4jPipeline._extract_review_properties`: same discipline with the
review exclusion set. -/
def extract_review_properties (items : List (String × Option PropValue)) :
    List (String × PropValue) :=
  items.filterMap (fun kv =>
    if kv.1 ∈ review_exclude_fields then none
    else
      match kv.2 with
      | some v => some (kv.1, v)
      | none => none)

/-! ### Exception-flow models (`pipelines.py`, `spiders/royal_road.py`)

Fallible Python operations are modelled as `Except String` computations;
a `try/except` that logs and continues maps an `error` back into normal
control flow, while a `try/except` that re-raises returns the `error`. -/

/-- An item reaching `Neo4jPipeline.process_item`. -/
inductive AnyItem where
  | fiction : FictionItem → AnyItem
  | review : ReviewItem → AnyItem
deriving DecidableEq, Repr

/-- `Neo4jPipeline.process_item`: the whole routing/dispatch body runs in
a `try` whose `except Exception` logs and falls through, so the item is
returned and no exception escapes. -/
def process_item (dispatch : AnyItem → Except String Unit) (it : AnyItem) :
    Except String AnyItem :=
  match dispatch it with
  | Except.ok _ => Except.ok it
  | Except.error _ => Except.ok it

/-- `Neo4jPipeline.open_spider`: the connection attempt is wrapped in a
`try` whose `except` logs and then `raise`s — a connection failure
propagates and aborts the run. -/
def open_spider (connect : Except String Unit) : Except String Unit :=
  match connect with
  | Except.ok u => Except.ok u
  | Except.error e => Except.error e

/-- Per-review `try/except ... continue` loop of
`RoyalRoadSpider._extract_reviews_from_page`: a failing fragment is
dropped and the loop proceeds with the remaining fragments. -/
def extract_reviews_step (f : ReviewFragment → Except String ReviewItem)
    (frags : List ReviewFragment) : List ReviewItem :=
  frags.filterMap (fun fr =>
    match f fr with
    | Except.ok it => some it
    | Except.error _ => none)

/-! ### Spec-modelled comparison definition for the description strategy

The specification describes `description` as joining the fragments of the
*first* selector (in priority order) that yields any match.  This
definition follows the spec's words and exists only to be compared with
the source-derived `descFragments`/`load_fiction` behaviour. -/

/-- Description value as the specification words it: newline-join of the
fragments of the first description selector yielding any match. -/
def description_spec (pg : Page) : Option String :=
  let f1 := pg.descHidden.map (fun v => strip_whitespace (strip_html v))
  let f2 := pg.descText.map (fun v => strip_whitespace (strip_html v))
  let f3 := pg.ogDescription.map (fun v => strip_whitespace (strip_html v))
  if f1 ≠ [] then some (String.intercalate "\n" f1)
  else if f2 ≠ [] then some (String.intercalate "\n" f2)
  else if f3 ≠ [] then some (String.intercalate "\n" f3)
  else none

/-! ### Concrete inputs used by the claim witnesses and counterexamples -/

/-- `star-NN` substring presence: the input contains the literal `star-`
immediately followed by at least one digit (the shape `re.search` of
`parse_star_rating` looks for). -/
def hasStarSub (l : List Char) : Prop :=
  ∃ pre d post, l = pre ++ starPat ++ d :: post ∧ d.isDigit = true

/-- An author-profile page (URL pattern `/profile/{id}/{username}`). -/
def pgAuthor : Page := { url := "https://www.royalroad.com/profile/4521/someuser" }

/-- A fiction page on which both the hidden-content description selector
and the `og:description` meta selector yield a fragment. -/
def pgC3 : Page := { url := "", descHidden := ["A"], ogDescription := ["B"] }

/-- The item `load_fiction` extracts from `pgC3`. -/
def fictionItemC3 : FictionItem := { description := some "A\nB" }

/-- A complete review fragment (all required selectors yield values). -/
def frag0 : ReviewFragment :=
  { idAttr := "review-1271589"
  , titleTexts := ["Great story"]
  , reviewTexts := ["I liked it"]
  , byTexts := ["Bob"]
  , authorHref := some "/profile/4521/bob"
  , timeAttrs := ["2023-01-01T00:00:00+00:00"]
  , chapterTexts := ["Chapter 10"]
  , overallStarClass := some "star-40" }

/-- Adapter view of a concrete fiction record (one ordinary field, the
identity field, an absent field, and a provenance field). -/
def fictionItems9 : List (String × Option PropValue) :=
  [("title", some (PropValue.str "T")), ("fiction_id", some (PropValue.int 89034)),
   ("rating", none), ("scraped_at", some (PropValue.str "2023-01-01"))]

/-- Adapter view of a concrete review record. -/
def reviewItems9 : List (String × Option PropValue) :=
  [("review_id", some (PropValue.nat 1271589)), ("review_title", some (PropValue.str "R")),
   ("fiction_id", some (PropValue.int 89034)), ("style_rating", none),
   ("version", some (PropValue.nat 1))]

/-! ### Basic lemmas about characters, digit lists and rendering -/

theorem isDigit_toNat {c : Char} (h : c.isDigit = true) : 48 ≤ c.toNat ∧ c.toNat ≤ 57 := by
  simp only [Char.isDigit, decide_eq_true_eq, Bool.and_eq_true] at h
  obtain ⟨h1, h2⟩ := h
  exact ⟨h1, h2⟩

theorem digit_ne_of_lt {c d : Char} (h : c.isDigit = true) (hd : d.toNat < 48 ∨ 57 < d.toNat) :
    c ≠ d := by
  intro hcd
  subst hcd
  obtain ⟨h1, h2⟩ := isDigit_toNat h
  omega

theorem digit_not_ws {c : Char} (h : c.isDigit = true) : isPyWs c = false := by
  by_contra hw
  rw [Bool.not_eq_false] at hw
  simp only [isPyWs, Bool.or_eq_true, beq_iff_eq] at hw
  obtain ⟨h1, h2⟩ := isDigit_toNat h
  rcases hw with ((((rfl | rfl) | rfl) | rfl) | rfl) | rfl <;> simp_all

theorem digitsVal_append_single (l : List Char) (c : Char) :
    digitsVal (l ++ [c]) = digitsVal l * 10 + digitVal c := by
  simp [digitsVal, List.foldl_append]

theorem digitVal_digitChar : ∀ n, n < 10 → digitVal (digitChar n) = n := by decide

theorem isDigit_digitChar : ∀ n, n < 10 → (digitChar n).isDigit = true := by decide

theorem natDigitsAux_val : ∀ fuel n, n ≤ fuel → digitsVal (natDigitsAux fuel n) = n := by
  intro fuel
  induction fuel with
  | zero => intro n hn; interval_cases n; rfl
  | succ f ih =>
    intro n hn
    match n with
    | 0 => rfl
    | m + 1 =>
      rw [natDigitsAux, digitsVal_append_single]
      rw [ih ((m + 1) / 10) (by omega)]
      rw [digitVal_digitChar _ (Nat.mod_lt _ (by omega))]
      omega

theorem natDigitsAux_digits : ∀ fuel n c, c ∈ natDigitsAux fuel n → c.isDigit = true := by
  intro fuel
  induction fuel with
  | zero => intro n c hc; simp [natDigitsAux] at hc
  | succ f ih =>
    intro n c hc
    match n with
    | 0 => simp [natDigitsAux] at hc
    | m + 1 =>
      rw [natDigitsAux] at hc
      rcases List.mem_append.mp hc with h | h
      · exact ih _ _ h
      · rcases List.mem_singleton.mp h with rfl
        exact isDigit_digitChar _ (Nat.mod_lt _ (by omega))

theorem natDigits_val (n : Nat) : digitsVal (natDigits n) = n := by
  rw [natDigits]
  split
  · simp_all [digitsVal, digitVal]
  · exact natDigitsAux_val _ _ (by omega)

theorem natDigits_digits (n : Nat) : ∀ c ∈ natDigits n, c.isDigit = true := by
  intro c hc
  rw [natDigits] at hc
  split at hc
  · rcases List.mem_singleton.mp hc with rfl; decide
  · exact natDigitsAux_digits _ _ _ hc

theorem natDigits_ne_nil (n : Nat) : natDigits n ≠ [] := by
  rw [natDigits]
  split
  · simp
  · match n, ‹¬n = 0› with
    | m + 1, _ => rw [natDigitsAux]; simp

/-! ### Lemmas about `takeWhile`/`dropWhile`/`stripEnds` -/

theorem dropWhile_eq_self_of {p : Char → Bool} {l : List Char}
    (h : ∀ c ∈ l, p c = false) : l.dropWhile p = l := by
  cases l with
  | nil => rfl
  | cons c cs => rw [List.dropWhile_cons, h c (by simp)]; simp

theorem takeWhile_all {p : Char → Bool} {l : List Char}
    (h : ∀ c ∈ l, p c = true) : l.takeWhile p = l := by
  induction l with
  | nil => rfl
  | cons c cs ih =>
    rw [List.takeWhile_cons, h c (by simp)]
    simp only [if_true, List.cons.injEq, true_and]
    exact ih (fun d hd => h d (by simp [hd]))

theorem dropWhile_all {p : Char → Bool} {l : List Char}
    (h : ∀ c ∈ l, p c = true) : l.dropWhile p = [] := by
  induction l with
  | nil => rfl
  | cons c cs ih =>
    rw [List.dropWhile_cons, h c (by simp)]
    simp only [if_true]
    exact ih (fun d hd => h d (by simp [hd]))

theorem dropWhile_append_all {p : Char → Bool} {l1 l2 : List Char}
    (h : ∀ c ∈ l1, p c = true) : (l1 ++ l2).dropWhile p = l2.dropWhile p := by
  induction l1 with
  | nil => rfl
  | cons c cs ih =>
    rw [List.cons_append, List.dropWhile_cons, h c (by simp)]
    simp only [if_true]
    exact ih (fun d hd => h d (by simp [hd]))

theorem takeWhile_append_stop {p : Char → Bool} {l1 l2 : List Char} {c : Char}
    (h : ∀ d ∈ l1, p d = true) (hc : p c = false) :
    (l1 ++ c :: l2).takeWhile p = l1 := by
  induction l1 with
  | nil => simp [List.takeWhile_cons, hc]
  | cons a as ih =>
    rw [List.cons_append, List.takeWhile_cons, h a (by simp)]
    simp only [if_true, List.cons.injEq, true_and]
    exact ih (fun d hd => h d (by simp [hd]))

theorem dropWhile_append_stop {p : Char → Bool} {l1 l2 : List Char} {c : Char}
    (h : ∀ d ∈ l1, p d = true) (hc : p c = false) :
    (l1 ++ c :: l2).dropWhile p = c :: l2 := by
  rw [dropWhile_append_all h, List.dropWhile_cons, hc]
  simp

theorem stripEnds_eq_self_of {l : List Char} (h : ∀ c ∈ l, isPyWs c = false) :
    stripEnds l = l := by
  rw [stripEnds, dropWhile_eq_self_of h,
    dropWhile_eq_self_of (fun c hc => h c (List.mem_reverse.mp hc)), List.reverse_reverse]

/-! ### Lemmas about the `int()` model on digit strings -/

theorem underscoreTail_digits {l : List Char} (h : ∀ c ∈ l, c.isDigit = true) :
    underscoreTail l = true := by
  induction l with
  | nil => rfl
  | cons c cs ih =>
    have hc : c.isDigit = true := h c (by simp)
    cases cs with
    | nil =>
      show (if c = '_' then false else c.isDigit && underscoreTail []) = true
      rw [if_neg (digit_ne_of_lt hc (by decide)), hc]
      rfl
    | cons d cs2 =>
      show (if c = '_' then d.isDigit && underscoreTail cs2
            else c.isDigit && underscoreTail (d :: cs2)) = true
      rw [if_neg (digit_ne_of_lt hc (by decide)), hc,
        ih (fun e he => h e (by simp [List.mem_cons.mp he]))]
      rfl

theorem underscoreDigitsOk_digits {l : List Char} (hne : l ≠ [])
    (h : ∀ c ∈ l, c.isDigit = true) : underscoreDigitsOk l = true := by
  match l, hne with
  | c :: cs, _ =>
    rw [underscoreDigitsOk, h c (by simp),
      underscoreTail_digits (fun d hd => h d (by simp [hd]))]
    rfl

theorem pyIntCore_digits {l : List Char} (hne : l ≠ []) (h : ∀ c ∈ l, c.isDigit = true) :
    pyIntCore l = some ((digitsVal l : Nat) : Int) := by
  match l, hne with
  | c :: cs, _ =>
    have hc : c.isDigit = true := h c (by simp)
    rw [pyIntCore]
    rw [if_neg (by
      simp only [List.head?_cons, Option.some.injEq]
      exact digit_ne_of_lt hc (by decide))]
    rw [if_neg (by
      simp only [List.head?_cons, Option.some.injEq]
      exact digit_ne_of_lt hc (by decide))]
    rw [if_pos (underscoreDigitsOk_digits (by simp) h)]
    rw [List.filter_eq_self.mpr h]

theorem pyInt_digits {l : List Char} (hne : l ≠ []) (h : ∀ c ∈ l, c.isDigit = true) :
    pyInt l = some ((digitsVal l : Nat) : Int) := by
  rw [pyInt, stripEnds_eq_self_of (fun c hc => digit_not_ws (h c hc))]
  exact pyIntCore_digits hne h

theorem pyInt_natDigits (n : Nat) : pyInt (natDigits n) = some ((n : Nat) : Int) := by
  rw [pyInt_digits (natDigits_ne_nil n) (natDigits_digits n), natDigits_val]

theorem mkString_ne_empty {l : List Char} (h : l ≠ []) : (⟨l⟩ : String) ≠ "" := by
  intro hc
  have : l = [] := congrArg String.data hc
  exact h this

theorem strOfInt_data_nonneg {i : Int} (h : 0 ≤ i) : (strOfInt i).data = natDigits i.toNat := by
  rw [strOfInt, if_neg (by omega)]

theorem strOfInt_data_neg {i : Int} (h : i < 0) : (strOfInt i).data = '-' :: natDigits i.natAbs := by
  rw [strOfInt, if_pos h]

theorem strOfInt_ne_empty (i : Int) : strOfInt i ≠ "" := by
  rw [strOfInt]
  split
  · exact mkString_ne_empty (by simp)
  · exact mkString_ne_empty (natDigits_ne_nil _)

theorem strOfInt_no_ws (i : Int) : ∀ c ∈ (strOfInt i).data, isPyWs c = false := by
  intro c hc
  rw [strOfInt] at hc
  split at hc
  · simp only [String.data] at hc
    rcases List.mem_cons.mp hc with rfl | hm
    · decide
    · exact digit_not_ws (natDigits_digits _ _ hm)
  · exact digit_not_ws (natDigits_digits _ _ hc)

theorem strip_whitespace_strOfInt (i : Int) : strip_whitespace (strOfInt i) = strOfInt i := by
  rw [strip_whitespace, if_neg (strOfInt_ne_empty i)]
  have : stripEnds (strOfInt i).data = (strOfInt i).data := stripEnds_eq_self_of (strOfInt_no_ws i)
  rw [this]

theorem pyInt_strOfInt (i : Int) : pyInt (strOfInt i).data = some i := by
  rcases lt_or_le i 0 with hneg | hpos
  · rw [strOfInt_data_neg hneg, pyInt,
      stripEnds_eq_self_of (by
        intro c hc
        rcases List.mem_cons.mp hc with rfl | hm
        · decide
        · exact digit_not_ws (natDigits_digits _ _ hm))]
    rw [pyIntCore]
    rw [if_neg (by simp)]
    rw [if_pos (by simp)]
    simp only [List.tail_cons]
    rw [if_pos (underscoreDigitsOk_digits (natDigits_ne_nil _) (natDigits_digits _))]
    rw [List.filter_eq_self.mpr (natDigits_digits _), natDigits_val]
    congr 1
    omega
  · rw [strOfInt_data_nonneg hpos, pyInt_natDigits]
    congr 1
    omega

theorem parse_int_review_strOfInt (i : Int) :
    parse_int_review (some (strip_whitespace (strOfInt i))) = some i := by
  rw [strip_whitespace_strOfInt, parse_int_review, if_neg (strOfInt_ne_empty i)]
  exact pyInt_strOfInt i

/-! ### Lemmas about prefix matching and the search loops -/

theorem patMatch_iff (p : List Char) : ∀ l, patMatch p l = true ↔ ∃ t, l = p ++ t := by
  induction p with
  | nil => intro l; simp [patMatch]
  | cons a ps ih =>
    intro l
    cases l with
    | nil =>
      simp only [patMatch, List.cons_append]
      constructor
      · intro hc; exact absurd hc (by simp)
      · rintro ⟨t, ht⟩; exact absurd ht (by simp)
    | cons c cs =>
      simp only [patMatch, Bool.and_eq_true, beq_iff_eq, ih cs, List.cons_append]
      constructor
      · rintro ⟨rfl, t, rfl⟩; exact ⟨t, rfl⟩
      · rintro ⟨t, ht⟩
        rcases List.cons.inj ht with ⟨rfl, rfl⟩
        exact ⟨rfl, t, rfl⟩

theorem patMatch_append (p t : List Char) : patMatch p (p ++ t) = true :=
  (patMatch_iff p (p ++ t)).mpr ⟨t, rfl⟩

theorem patMatch_cons_ne {a c : Char} {ps cs : List Char} (h : a ≠ c) :
    patMatch (a :: ps) (c :: cs) = false := by
  simp [patMatch, h]

theorem patMatch_cons_nil (a : Char) (ps : List Char) : patMatch (a :: ps) [] = false := rfl

theorem scanPat_cons_of_nomatch {pat : List Char} {c : Char} {cs : List Char}
    (h : patMatch pat (c :: cs) = false) : scanPat pat (c :: cs) = scanPat pat cs := by
  rw [scanPat, scanHere, h]
  simp

theorem scanPat_cons_of_match {pat : List Char} {c : Char} {cs : List Char} {n : Nat}
    (h : scanHere pat (c :: cs) = some n) : scanPat pat (c :: cs) = some n := by
  rw [scanPat, h]

theorem scanHere_sound {pat l : List Char} {n : Nat} (h : scanHere pat l = some n) :
    ∃ ds rest, l = pat ++ ds ++ rest ∧ ds ≠ [] ∧ (∀ c ∈ ds, c.isDigit = true) ∧
      digitsVal ds = n := by
  rw [scanHere] at h
  split at h
  · rename_i hm
    obtain ⟨t, rfl⟩ := (patMatch_iff pat _).mp hm
    rw [List.drop_left] at h
    split at h
    · exact absurd h (by simp)
    · rename_i hrun
      refine ⟨t.takeWhile Char.isDigit, t.dropWhile Char.isDigit, ?_, hrun, ?_, ?_⟩
      · rw [List.append_assoc, List.takeWhile_append_dropWhile]
      · exact fun c hc => List.mem_takeWhile_imp hc
      · exact Option.some.inj h
  · exact absurd h (by simp)

theorem scanPat_sound {pat : List Char} :
    ∀ {l : List Char} {n : Nat}, scanPat pat l = some n →
      ∃ pre ds rest, l = pre ++ pat ++ ds ++ rest ∧ ds ≠ [] ∧
        (∀ c ∈ ds, c.isDigit = true) ∧ digitsVal ds = n := by
  intro l
  induction l with
  | nil => intro n h; exact absurd h (by simp [scanPat])
  | cons c cs ih =>
    intro n h
    rw [scanPat] at h
    rcases hh : scanHere pat (c :: cs) with _ | m
    · rw [hh] at h
      obtain ⟨pre, ds, rest, heq, hne, hdig, hval⟩ := ih h
      exact ⟨c :: pre, ds, rest, by rw [heq]; rfl, hne, hdig, hval⟩
    · rw [hh] at h
      rcases Option.some.inj h with rfl
      obtain ⟨ds, rest, heq, hne, hdig, hval⟩ := scanHere_sound hh
      exact ⟨[], ds, rest, by rw [heq]; rfl, hne, hdig, hval⟩

theorem scanPat_isSome {pat : List Char} :
    ∀ {pre : List Char} {d : Char} {post : List Char}, d.isDigit = true →
      (scanPat pat (pre ++ pat ++ d :: post)).isSome = true := by
  intro pre
  induction pre with
  | nil =>
    intro d post hd
    have hm : patMatch pat (pat ++ d :: post) = true := patMatch_append pat _
    have hl : ([] : List Char) ++ pat ++ d :: post = pat ++ d :: post := by simp
    rw [hl]
    have hrun : ((pat ++ d :: post).drop pat.length).takeWhile Char.isDigit =
        (d :: post).takeWhile Char.isDigit := by rw [List.drop_left]
    cases hp : pat ++ d :: post with
    | nil => exact absurd hp (by simp)
    | cons c cs =>
      rw [← hp, scanPat.eq_def]
      split
      · rename_i heq; exact absurd (hp.symm.trans heq) (by simp)
      · rename_i c' cs' heq
        rw [← heq]
        have : scanHere pat (pat ++ d :: post) ≠ none := by
          rw [scanHere, hm]
          simp only [if_true, hrun, List.takeWhile_cons, hd, if_true]
          split
          · rename_i hcon; exact absurd hcon (by simp [List.takeWhile_cons, hd])
          · simp
        rcases hsh : scanHere pat (pat ++ d :: post) with _ | m
        · exact absurd hsh this
        · simp [hsh]
  | cons a pre' ih =>
    intro d post hd
    have hl : (a :: pre') ++ pat ++ d :: post = a :: (pre' ++ pat ++ d :: post) := by simp
    rw [hl, scanPat]
    rcases hh : scanHere pat (a :: (pre' ++ pat ++ d :: post)) with _ | m
    · exact ih hd
    · simp

/-! ### Lemmas about the slash-anchored fiction-id pattern -/

theorem scanPatSlash_cons_of_nomatch {pat : List Char} {c : Char} {cs : List Char}
    (h : patMatch pat (c :: cs) = false) :
    scanPatSlash pat (c :: cs) = scanPatSlash pat cs := by
  rw [scanPatSlash, scanHereSlash, h]
  simp

theorem scanPatSlash_cons_of_match {pat : List Char} {c : Char} {cs : List Char} {n : Nat}
    (h : scanHereSlash pat (c :: cs) = some n) : scanPatSlash pat (c :: cs) = some n := by
  rw [scanPatSlash, h]

theorem patMatch_fiction_head {c : Char} (h : c ≠ '/') (cs : List Char) :
    patMatch fictionPat (c :: cs) = false :=
  patMatch_cons_ne (fun hc => h hc.symm)

theorem scanPatSlash_fiction_digits {l : List Char} (h : ∀ c ∈ l, c.isDigit = true) :
    scanPatSlash fictionPat l = none := by
  induction l with
  | nil => rfl
  | cons c cs ih =>
    rw [scanPatSlash_cons_of_nomatch
      (patMatch_fiction_head (digit_ne_of_lt (h c (by simp)) (by decide)) cs)]
    exact ih (fun d hd => h d (by simp [hd]))

theorem scanHereSlash_fiction_at_digits {ds : List Char} (h : ∀ c ∈ ds, c.isDigit = true) :
    scanHereSlash fictionPat (fictionPat ++ ds) = none := by
  rw [scanHereSlash, patMatch_append]
  simp only [if_true, List.drop_left]
  rw [if_neg]
  rintro ⟨-, hhead⟩
  rw [dropWhile_all h] at hhead
  exact absurd hhead (by simp)

theorem scanPatSlash_fiction_slash_digits {ds : List Char} (h : ∀ c ∈ ds, c.isDigit = true) :
    scanPatSlash fictionPat ('/' :: ds) = none := by
  have hnm : patMatch fictionPat ('/' :: ds) = false := by
    cases ds with
    | nil => rfl
    | cons d ds' =>
      show (('/' : Char) == '/' && patMatch ['f', 'i', 'c', 't', 'i', 'o', 'n', '/'] (d :: ds')) =
        false
      rw [patMatch_cons_ne (fun hc => by
        have := digit_ne_of_lt (h d (by simp)) (show ('f' : Char).toNat < 48 ∨
          57 < ('f' : Char).toNat by decide)
        exact this hc.symm)]
      simp
  rw [scanPatSlash_cons_of_nomatch hnm]
  exact scanPatSlash_fiction_digits h

theorem scanPatSlash_fiction_no_trailing {ds : List Char} (h : ∀ c ∈ ds, c.isDigit = true) :
    scanPatSlash fictionPat (fictionPat ++ ds) = none := by
  have hsh : scanHereSlash fictionPat (fictionPat ++ ds) = none :=
    scanHereSlash_fiction_at_digits h
  have step1 : scanPatSlash fictionPat (fictionPat ++ ds) =
      scanPatSlash fictionPat ('f' :: 'i' :: 'c' :: 't' :: 'i' :: 'o' :: 'n' :: '/' :: ds) := by
    show (match scanHereSlash fictionPat (fictionPat ++ ds) with
      | some n => some n
      | none => scanPatSlash fictionPat ('f' :: 'i' :: 'c' :: 't' :: 'i' :: 'o' :: 'n' :: '/' :: ds)) =
      scanPatSlash fictionPat ('f' :: 'i' :: 'c' :: 't' :: 'i' :: 'o' :: 'n' :: '/' :: ds)
    rw [hsh]
  rw [step1]
  rw [scanPatSlash_cons_of_nomatch (patMatch_fiction_head (by decide) _)]
  rw [scanPatSlash_cons_of_nomatch (patMatch_fiction_head (by decide) _)]
  rw [scanPatSlash_cons_of_nomatch (patMatch_fiction_head (by decide) _)]
  rw [scanPatSlash_cons_of_nomatch (patMatch_fiction_head (by decide) _)]
  rw [scanPatSlash_cons_of_nomatch (patMatch_fiction_head (by decide) _)]
  rw [scanPatSlash_cons_of_nomatch (patMatch_fiction_head (by decide) _)]
  rw [scanPatSlash_cons_of_nomatch (patMatch_fiction_head (by decide) _)]
  exact scanPatSlash_fiction_slash_digits h

theorem scanPatSlash_fiction_trailing {ds : List Char} (hne : ds ≠ [])
    (h : ∀ c ∈ ds, c.isDigit = true) :
    scanPatSlash fictionPat (fictionPat ++ ds ++ ['/']) = some (digitsVal ds) := by
  have hc : fictionPat ++ ds ++ ['/'] = '/' :: (['f', 'i', 'c', 't', 'i', 'o', 'n', '/'] ++
      (ds ++ ['/'])) := by simp [fictionPat]
  rw [hc]
  apply scanPatSlash_cons_of_match
  rw [show ('/' :: (['f', 'i', 'c', 't', 'i', 'o', 'n', '/'] ++ (ds ++ ['/']))) =
    fictionPat ++ (ds ++ ['/']) from rfl]
  rw [scanHereSlash, patMatch_append]
  simp only [if_true, List.drop_left]
  rw [show (ds ++ ['/'] : List Char) = ds ++ '/' :: [] from rfl]
  rw [takeWhile_append_stop h (by decide), dropWhile_append_stop h (by decide)]
  rw [if_pos ⟨hne, by simp⟩]

/-! ### Lemmas about the URL-path model -/

theorem schemeSplit_step {c : Char} {cs : List Char} (h1 : c ≠ '/') (h2 : c ≠ ':') :
    schemeSplit (c :: cs) = schemeSplit cs := by
  rw [schemeSplit, if_neg h1, if_neg (fun hc => h2 hc.1)]

theorem schemeSplit_https (rest : List Char) :
    schemeSplit ('h' :: 't' :: 't' :: 'p' :: 's' :: ':' :: '/' :: '/' :: rest) = some rest := by
  rw [schemeSplit_step (by decide) (by decide)]
  rw [schemeSplit_step (by decide) (by decide)]
  rw [schemeSplit_step (by decide) (by decide)]
  rw [schemeSplit_step (by decide) (by decide)]
  rw [schemeSplit_step (by decide) (by decide)]
  rw [schemeSplit, if_neg (by decide), if_pos (by simp)]
  rfl

theorem urlPath_absolute {host rest : List Char}
    (hhost : ∀ c ∈ host, c ≠ '/' ∧ c ≠ ':')
    (hrest : ∀ c ∈ rest, c ≠ '?' ∧ c ≠ '#') :
    urlPath ⟨'h' :: 't' :: 't' :: 'p' :: 's' :: ':' :: '/' :: '/' :: (host ++ '/' :: rest)⟩ =
      '/' :: rest := by
  have hsplit : schemeSplit
      (⟨'h' :: 't' :: 't' :: 'p' :: 's' :: ':' :: '/' :: '/' ::
        (host ++ '/' :: rest)⟩ : String).data = some (host ++ '/' :: rest) :=
    schemeSplit_https _
  rw [urlPath, hsplit]
  show ((host ++ '/' :: rest).dropWhile (fun c => !(c == '/'))).takeWhile
    (fun c => !(c == '?' || c == '#')) = '/' :: rest
  rw [dropWhile_append_stop (p := fun c => !(c == '/'))
    (fun d hd => by simp [(hhost d hd).1]) (by decide)]
  rw [takeWhile_all (p := fun c => !(c == '?' || c == '#'))]
  intro c hc
  rcases List.mem_cons.mp hc with rfl | hm
  · decide
  · simp [(hrest c hm).1, (hrest c hm).2]

/-! ### Truthiness and star-substring bridging lemmas -/

theorem natTruthy_isSome {o : Option Nat} (h : natTruthy o = true) : o.isSome = true := by
  cases o <;> simp_all [natTruthy]

theorem strTruthy_isSome {o : Option String} (h : strTruthy o = true) : o.isSome = true := by
  cases o <;> simp_all [strTruthy]

theorem intTruthy_isSome {o : Option Int} (h : intTruthy o = true) : o.isSome = true := by
  cases o <;> simp_all [intTruthy]

theorem ratTruthy_isSome {o : Option ℚ} (h : ratTruthy o = true) : o.isSome = true := by
  cases o <;> simp_all [ratTruthy]

theorem hasStarSub_of_scan {l : List Char} {n : Nat} (h : scanPat starPat l = some n) :
    hasStarSub l := by
  obtain ⟨pre, ds, rest, heq, hne, hdig, -⟩ := scanPat_sound h
  match ds, hne with
  | d :: ds', _ =>
    refine ⟨pre, d, ds' ++ rest, ?_, hdig d (by simp)⟩
    rw [heq]
    simp

theorem scan_isSome_of_hasStarSub {l : List Char} (h : hasStarSub l) :
    (scanPat starPat l).isSome = true := by
  obtain ⟨pre, d, post, rfl, hd⟩ := h
  exact scanPat_isSome hd

theorem hasStarSub_data_ne_empty {s : String} (h : hasStarSub s.data) : s ≠ "" := by
  rintro rfl
  obtain ⟨pre, d, post, heq, -⟩ := h
  rw [show ("" : String).data = [] from rfl] at heq
  exact absurd heq (by simp [starPat])

/-! ### Evaluation facts about the concrete witness inputs -/

theorem frag0_review_loaded_required :
    reviewRequiredOk (load_review frag0 (strOfInt 89034)) = true := by
  rw [reviewRequiredOk]
  simp only [Bool.and_eq_true]
  refine ⟨⟨⟨⟨⟨⟨⟨⟨?_, ?_⟩, ?_⟩, ?_⟩, ?_⟩, ?_⟩, ?_⟩, ?_⟩, ?_⟩
  · decide
  · decide
  · decide
  · decide
  · decide
  · decide
  · decide
  · rw [show (load_review frag0 (strOfInt 89034)).overall_rating =
      some (((40 : Nat) : ℚ) / 10) from rfl]
    simp only [ratTruthy, decide_eq_true_eq]
    norm_num
  · decide

theorem frag0_extract_singleton :
    extract_reviews_from_page [frag0] 89034 = [load_review frag0 (strOfInt 89034)] := by
  simp [extract_reviews_from_page, frag0_review_loaded_required]

/-! ## Claim theorems -/

/-- C1: the claim states that every Review record with a non-absent
`reviewId` handed to the persistence layer takes the review upsert path.
The code violates this: `Neo4jPipeline.process_item` tests
`adapter.get("fiction_id") is not None` first, and every Review record
passing the spider's required-field filter carries an injected
`fiction_id`, so such a record — e.g. `review_id = 1271589`,
`fiction_id = 89034` — is routed to `_process_fiction_item` and merged as
a Fiction node, never reaching the review upsert keyed by `reviewId`.
This contradicts the pipeline's own documentation (`Review nodes,
WROTE_REVIEW and REVIEWS relationships`) and leaves
`_process_review_item` unreachable for every valid review. -/
theorem claim1_review_routed_to_fiction_path :
    process_item_route (some 89034) (some 1271589) = Route.fictionPath ∧
    (∀ (fid : Int) (rid : Nat), process_item_route (some fid) (some rid) = Route.fictionPath) ∧
    Route.fictionPath ≠ Route.reviewPath :=
  ⟨rfl, fun _ _ => rfl, by decide⟩

/-- C2 (counterexample): on an AUTHOR-classified page the claim says the
parse output contains no value at all; in fact `parse` executes
`yield None`, so the output sequence is the one-element sequence holding
the Python `None` placeholder — a value, refuting "no other value". -/
theorem claim2_author_counterexample :
    determine_page_type pgAuthor.url = PageType.author ∧
    parse pgAuthor = Except.ok [ParseOut.noneVal] ∧
    ([ParseOut.noneVal] : List ParseOut) ≠ [] := by
  refine ⟨by decide, ?_, by decide⟩
  rw [parse, if_neg (by decide)]

/-- C2 (amended): on every AUTHOR-classified page `parse` emits no
Fiction record and no Review record; its output sequence consists of
exactly one placeholder `None` value (which the crawling framework
discards). -/
theorem claim2_author_page_yields_none (pg : Page)
    (h : determine_page_type pg.url = PageType.author) :
    parse pg = Except.ok [ParseOut.noneVal] := by
  rw [parse, if_neg]
  intro hc
  rw [h] at hc
  exact absurd hc (by decide)

/-- C2 (witness): the amended theorem applied to the concrete author
page. -/
theorem claim2_author_page_witness : parse pgAuthor = Except.ok [ParseOut.noneVal] :=
  claim2_author_page_yields_none pgAuthor (by decide)

/-- C3 (counterexample): the claim says fragments from lower-priority
description selectors contribute nothing when a higher-priority selector
matched.  On a page where the hidden-content selector yields `"A"` and the
`og:description` meta yields `"B"`, the extracted description is
`"A\nB"` — the meta fragment is appended — while the claim's
first-matching-selector reading gives `"A"`. -/
theorem claim3_description_counterexample :
    load_fiction pgC3 = Except.ok fictionItemC3 ∧
    fictionItemC3.description = some "A\nB" ∧
    description_spec pgC3 = some "A" ∧
    fictionItemC3.description ≠ description_spec pgC3 := by
  refine ⟨rfl, rfl, by decide, by decide⟩

/-- C3 (amended): the extracted description is the newline-join of the
input-processed fragments of **all three** description selectors
concatenated in priority order (hidden-content block, then direct
description text, then `og:description`), `none` only when no selector
yields any fragment; a lower-priority selector's fragments are appended
even when a higher-priority selector matched. -/
theorem claim3_description_joins_all_selectors (pg : Page) (it : FictionItem)
    (h : load_fiction pg = Except.ok it) :
    it.description = joinFrags (descFragments pg) := by
  rw [load_fiction] at h
  split at h
  · exact absurd h (by simp)
  · rcases Except.ok.inj h with rfl
    rfl

/-- C3 (witness): the amended theorem applied to the concrete page. -/
theorem claim3_description_witness :
    fictionItemC3.description = joinFrags (descFragments pgC3) :=
  claim3_description_joins_all_selectors pgC3 fictionItemC3 rfl

/-- C4 (counterexample): the claim says every non-absent value returned
by the star-class decoder lies in `[0, 5]`.  The regex `star-(\d+)` does
not bound the digit run: `parse_star_rating "star-999"` returns `99.9`. -/
theorem claim4_star_rating_range_counterexample :
    parse_star_rating (some "star-999") = some (((999 : Nat) : ℚ) / 10) ∧
    ¬ (((999 : Nat) : ℚ) / 10 ≤ 5) := by
  refine ⟨rfl, by norm_num⟩

/-- C4 (amended): whenever the decoder's `star-NN` match has `NN ≤ 50`
(the site's encoding range), the returned value lies in `[0, 5]`; the
range claim fails only for out-of-range `NN`, which the code does not
reject. -/
theorem claim4_star_rating_range_amended (s : String) (n : Nat)
    (hscan : scanPat starPat s.data = some n) (hle : n ≤ 50) :
    parse_star_rating (some s) = some (((n : Nat) : ℚ) / 10) ∧
    0 ≤ ((n : Nat) : ℚ) / 10 ∧ ((n : Nat) : ℚ) / 10 ≤ 5 := by
  have hs : s ≠ "" := by
    rintro rfl
    rw [show ("" : String).data = [] from rfl] at hscan
    exact absurd hscan (by simp [scanPat])
  refine ⟨?_, ?_, ?_⟩
  · show (if s = "" then none
      else (scanPat starPat s.data).map (fun n => ((n : Nat) : ℚ) / 10)) =
      some (((n : Nat) : ℚ) / 10)
    rw [if_neg hs, hscan]
    rfl
  · positivity
  · rw [div_le_iff₀ (by norm_num)]
    have : ((n : Nat) : ℚ) ≤ ((50 : Nat) : ℚ) := by exact_mod_cast hle
    calc ((n : Nat) : ℚ) ≤ ((50 : Nat) : ℚ) := this
      _ = 5 * 10 := by norm_num

/-- C4 (witness): the amended theorem applied at `star-45`. -/
theorem claim4_star_rating_range_witness :
    parse_star_rating (some "star-45") = some (((45 : Nat) : ℚ) / 10) ∧
    0 ≤ ((45 : Nat) : ℚ) / 10 ∧ ((45 : Nat) : ℚ) / 10 ≤ 5 :=
  claim4_star_rating_range_amended "star-45" 45 (by decide) (by decide)

/-- C5: `parse_star_rating` decodes `star-NN`: on any input containing a
`star-` digit substring it returns `NN / 10.0` for a `star-NN` occurrence
actually present in the input (the regex takes the first such occurrence);
on absent input or input without such a substring it returns absent; and
the three specified examples hold (`star-45 ↦ 4.5`, `star-0 ↦ 0.0`,
`not-a-star ↦ absent`). -/
theorem claim5_parse_star_rating (s : String) :
    (hasStarSub s.data →
      ∃ n : Nat, parse_star_rating (some s) = some (((n : Nat) : ℚ) / 10) ∧
        ∃ pre ds rest, s.data = pre ++ starPat ++ ds ++ rest ∧ ds ≠ [] ∧
          (∀ c ∈ ds, c.isDigit = true) ∧ digitsVal ds = n) ∧
    (¬ hasStarSub s.data → parse_star_rating (some s) = none) ∧
    parse_star_rating none = none ∧
    parse_star_rating (some "star-45") = some (((45 : Nat) : ℚ) / 10) ∧
    parse_star_rating (some "star-0") = some 0 ∧
    parse_star_rating (some "not-a-star") = none := by
  refine ⟨?_, ?_, rfl, rfl, ?_, rfl⟩
  · intro h
    have hsome := scan_isSome_of_hasStarSub h
    obtain ⟨n, hn⟩ := Option.isSome_iff_exists.mp hsome
    have hs : s ≠ "" := hasStarSub_data_ne_empty h
    refine ⟨n, ?_, ?_⟩
    · show (if s = "" then none
        else (scanPat starPat s.data).map (fun n => ((n : Nat) : ℚ) / 10)) =
        some (((n : Nat) : ℚ) / 10)
      rw [if_neg hs, hn]
      rfl
    · exact scanPat_sound hn
  · intro h
    rcases hsc : scanPat starPat s.data with _ | n
    · by_cases hs : s = ""
      · subst hs; rfl
      · show (if s = "" then none
          else (scanPat starPat s.data).map (fun n => ((n : Nat) : ℚ) / 10)) = none
        rw [if_neg hs, hsc]
        rfl
    · exact absurd (hasStarSub_of_scan hsc) h
  · rw [show parse_star_rating (some "star-0") = some (((0 : Nat) : ℚ) / 10) from rfl]
    norm_num

/-- C5 (witness): the decoding branch applied at `star-45`. -/
theorem claim5_parse_star_rating_witness :
    ∃ n : Nat, parse_star_rating (some "star-45") = some (((n : Nat) : ℚ) / 10) ∧
      ∃ pre ds rest, "star-45".data = pre ++ starPat ++ ds ++ rest ∧ ds ≠ [] ∧
        (∀ c ∈ ds, c.isDigit = true) ∧ digitsVal ds = n :=
  (claim5_parse_star_rating "star-45").1 ⟨[], '4', ['5'], by decide, by decide⟩

/-- C6 (counterexample): the claim describes one `parseInt` extractor and
cites both `parse_int` functions, but only the fiction loader's variant
strips thousands separators: the review loader's `parse_int` on
`"12,345"` returns absent, not `12345`. -/
theorem claim6_parse_int_counterexample :
    parse_int_review (some "12,345") = none ∧
    parse_int_review (some "12,345") ≠ some 12345 ∧
    parse_int (some "12,345") = some 12345 :=
  ⟨by decide, by decide, by decide⟩

/-- C6 (amended): the fiction loader's `parse_int` strips commas and
embedded whitespace before parsing, so every digit string rendered with
comma separators (and optional whitespace) parses to the integer formed by
its digits, and empty/absent input yields absent; the review loader's
`parse_int` is a plain parse on which comma-rendered input yields absent. -/
theorem claim6_parse_int_amended :
    (∀ l : List Char,
      (∀ c ∈ l, c.isDigit = true ∨ c = ',' ∨ isPyWs c = true) →
      (∃ c ∈ l, c.isDigit = true) →
      parse_int (some ⟨l⟩) = some ((digitsVal (l.filter Char.isDigit) : Nat) : Int)) ∧
    parse_int (some "12,345") = some 12345 ∧
    parse_int (some "") = none ∧
    parse_int (none : Option String) = none ∧
    parse_int_review (some "12,345") = none ∧
    parse_int_review (some "") = none ∧
    parse_int_review (none : Option String) = none := by
  refine ⟨?_, by decide, rfl, rfl, by decide, rfl, rfl⟩
  intro l hall hex
  obtain ⟨c0, hc0mem, hc0⟩ := hex
  have hlne : l ≠ [] := by
    rintro rfl
    exact absurd hc0mem (by simp)
  show (if (⟨l⟩ : String) = "" then none
    else pyInt ((⟨l⟩ : String).data.filter (fun c => !(c == ',' || isPyWs c)))) =
    some ((digitsVal (l.filter Char.isDigit) : Nat) : Int)
  rw [if_neg (mkString_ne_empty hlne)]
  have hfilter : l.filter (fun c => !(c == ',' || isPyWs c)) = l.filter Char.isDigit := by
    apply List.filter_congr
    intro c hc
    rcases hall c hc with hd | rfl | hw
    · simp [hd, digit_ne_of_lt hd (show (',' : Char).toNat < 48 ∨ 57 < (',' : Char).toNat by decide),
        digit_not_ws hd]
    · decide
    · have hnd : c.isDigit = false := by
        by_contra hcon
        rw [Bool.not_eq_false] at hcon
        rw [digit_not_ws hcon] at hw
        exact absurd hw (by simp)
      simp [hw, hnd]
  show pyInt (l.filter (fun c => !(c == ',' || isPyWs c))) =
    some ((digitsVal (l.filter Char.isDigit) : Nat) : Int)
  rw [hfilter]
  have hne2 : l.filter Char.isDigit ≠ [] := by
    intro hemp
    have hmem : c0 ∈ l.filter Char.isDigit := List.mem_filter.mpr ⟨hc0mem, hc0⟩
    rw [hemp] at hmem
    exact absurd hmem (by simp)
  exact pyInt_digits hne2 (fun c hc => (List.mem_filter.mp hc).2)

/-- C6 (witness): the comma-stripping branch applied at `"12,345"`. -/
theorem claim6_parse_int_witness :
    parse_int (some ⟨['1', '2', ',', '3', '4', '5']⟩) =
      some ((digitsVal (['1', '2', ',', '3', '4', '5'].filter Char.isDigit) : Nat) : Int) :=
  claim6_parse_int_amended.1 ['1', '2', ',', '3', '4', '5'] (by decide) ⟨'1', by decide, by decide⟩

/-- C7: every review item in the output of
`_extract_reviews_from_page` carries `fiction_id = some fid` — exactly the
injected fiction identifier, round-tripped through `str()` and the review
loader's `parse_int` — and passes the required-field validation, so no
required field (review id, title, text, reviewer, reviewer id, timestamp,
chapter, overall rating) is absent. -/
theorem claim7_reviews_have_fiction_id (frags : List ReviewFragment) (fid : Int)
    (it : ReviewItem) (h : it ∈ extract_reviews_from_page frags fid) :
    it.fiction_id = some fid ∧ reviewRequiredOk it = true ∧
    it.review_id.isSome = true ∧ it.review_title.isSome = true ∧ it.review.isSome = true ∧
    it.by_.isSome = true ∧ it.author_id.isSome = true ∧ it.reviewed_at_time.isSome = true ∧
    it.reviewed_at_chapter.isSome = true ∧ it.overall_rating.isSome = true := by
  obtain ⟨fr, hmem, hf⟩ := List.mem_filterMap.mp h
  split at hf
  · rename_i hreq
    rcases Option.some.inj hf with rfl
    have hfid : (load_review fr (strOfInt fid)).fiction_id = some fid := by
      show (optToList (parse_int_review (some (strip_whitespace (strOfInt fid))))).head? =
        some fid
      rw [parse_int_review_strOfInt]
      rfl
    have hreq' := hreq
    simp only [reviewRequiredOk, Bool.and_eq_true] at hreq'
    obtain ⟨⟨⟨⟨⟨⟨⟨⟨h1, h2⟩, h3⟩, h4⟩, h5⟩, h6⟩, h7⟩, h8⟩, h9⟩ := hreq'
    exact ⟨hfid, hreq, natTruthy_isSome h1, strTruthy_isSome h2, strTruthy_isSome h3,
      strTruthy_isSome h4, natTruthy_isSome h5, strTruthy_isSome h6, strTruthy_isSome h7,
      ratTruthy_isSome h8⟩
  · exact absurd hf (by simp)

/-- C7 (witness): the invariant at a concrete page with one complete
review fragment and fiction id 89034. -/
theorem claim7_reviews_have_fiction_id_witness :
    (load_review frag0 (strOfInt 89034)).fiction_id = some 89034 ∧
    reviewRequiredOk (load_review frag0 (strOfInt 89034)) = true ∧
    (load_review frag0 (strOfInt 89034)).review_id.isSome = true ∧
    (load_review frag0 (strOfInt 89034)).review_title.isSome = true ∧
    (load_review frag0 (strOfInt 89034)).review.isSome = true ∧
    (load_review frag0 (strOfInt 89034)).by_.isSome = true ∧
    (load_review frag0 (strOfInt 89034)).author_id.isSome = true ∧
    (load_review frag0 (strOfInt 89034)).reviewed_at_time.isSome = true ∧
    (load_review frag0 (strOfInt 89034)).reviewed_at_chapter.isSome = true ∧
    (load_review frag0 (strOfInt 89034)).overall_rating.isSome = true :=
  claim7_reviews_have_fiction_id [frag0] 89034 (load_review frag0 (strOfInt 89034)) (by
    rw [frag0_extract_singleton]
    exact List.mem_singleton.mpr rfl)

/-- C8: the per-record operations contain their exceptions —
`process_item` returns the item whatever its dispatch body does,
the per-review loop drops a failing fragment and continues with the rest —
while `open_spider` re-raises a connection failure, the crawl's only fatal
failure mode among these operations. -/
theorem claim8_exception_containment :
    (∀ (dispatch : AnyItem → Except String Unit) (it : AnyItem),
      process_item dispatch it = Except.ok it) ∧
    (∀ connect : Except String Unit, open_spider connect = connect) ∧
    (∀ (f : ReviewFragment → Except String ReviewItem) (e : String) (fr : ReviewFragment)
      (rest : List ReviewFragment), f fr = Except.error e →
      extract_reviews_step f (fr :: rest) = extract_reviews_step f rest) := by
  refine ⟨?_, ?_, ?_⟩
  · intro dispatch it
    cases hd : dispatch it <;> simp [process_item, hd]
  · intro connect
    cases connect <;> rfl
  · intro f e fr rest hf
    simp [extract_reviews_step, List.filterMap_cons, hf]

/-- C8 (witness): containment at a failing dispatch, a failing
connection, and a failing first review fragment. -/
theorem claim8_exception_containment_witness :
    process_item (fun _ => Except.error "boom") (AnyItem.fiction { }) =
      Except.ok (AnyItem.fiction { }) ∧
    open_spider (Except.error "connection refused") = Except.error "connection refused" ∧
    extract_reviews_step (fun _ => Except.error "bad") [({ } : ReviewFragment)] =
      extract_reviews_step (fun _ => Except.error "bad") [] :=
  ⟨claim8_exception_containment.1 _ _, claim8_exception_containment.2.1 _,
    claim8_exception_containment.2.2 _ "bad" { } [] rfl⟩

/-- C9: the property sets computed for the graph write exclude the
identity fields (`fiction_id` for a Fiction; `review_id` and `fiction_id`
for a Review; `author_id` for either), the provenance fields
(`scraped_at`, `version`) and the merge-managed timestamps
(`created_at`/`updated_at`, which no declared item field can even
supply), and contain no entry for an absent (`None`) field — every output
entry comes from a present (`some`) entry of the record. -/
theorem claim9_property_sets :
    (∀ items : List (String × Option PropValue),
      (∀ kv ∈ items, kv.1 ∈ fiction_item_fields) →
      ∀ k v, (k, v) ∈ extract_fiction_properties items →
        (k, some v) ∈ items ∧ k ≠ "fiction_id" ∧ k ≠ "author_id" ∧
        k ≠ "scraped_at" ∧ k ≠ "version" ∧ k ≠ "created_at" ∧ k ≠ "updated_at") ∧
    (∀ items : List (String × Option PropValue),
      (∀ kv ∈ items, kv.1 ∈ review_item_fields) →
      ∀ k v, (k, v) ∈ extract_review_properties items →
        (k, some v) ∈ items ∧ k ≠ "review_id" ∧ k ≠ "fiction_id" ∧ k ≠ "author_id" ∧
        k ≠ "scraped_at" ∧ k ≠ "version" ∧ k ≠ "created_at" ∧ k ≠ "updated_at") := by
  constructor
  · intro items hkeys k v hmem
    obtain ⟨⟨k1, v1⟩, hkv, hf⟩ := List.mem_filterMap.mp hmem
    by_cases hex : k1 ∈ fiction_exclude_fields
    · rw [if_pos hex] at hf
      exact absurd hf (by simp)
    · rw [if_neg hex] at hf
      cases hv : v1 with
      | none => rw [hv] at hf; exact absurd hf (by simp)
      | some v' =>
        rw [hv] at hf
        have hpair : (k1, v') = (k, v) := Option.some.inj hf
        have hk1 : k1 = k := congrArg Prod.fst hpair
        have hv1 : v' = v := congrArg Prod.snd hpair
        subst hk1
        subst hv1
        rw [hv] at hkv
        have hk : k1 ∈ fiction_item_fields := hkeys _ hkv
        simp only [fiction_exclude_fields, List.mem_cons, List.not_mem_nil, or_false,
          not_or] at hex
        obtain ⟨he1, he2, he3, he4⟩ := hex
        refine ⟨hkv, he3, he4, he1, he2, ?_, ?_⟩
        · intro hc; rw [hc] at hk; exact absurd hk (by decide)
        · intro hc; rw [hc] at hk; exact absurd hk (by decide)
  · intro items hkeys k v hmem
    obtain ⟨⟨k1, v1⟩, hkv, hf⟩ := List.mem_filterMap.mp hmem
    by_cases hex : k1 ∈ review_exclude_fields
    · rw [if_pos hex] at hf
      exact absurd hf (by simp)
    · rw [if_neg hex] at hf
      cases hv : v1 with
      | none => rw [hv] at hf; exact absurd hf (by simp)
      | some v' =>
        rw [hv] at hf
        have hpair : (k1, v') = (k, v) := Option.some.inj hf
        have hk1 : k1 = k := congrArg Prod.fst hpair
        have hv1 : v' = v := congrArg Prod.snd hpair
        subst hk1
        subst hv1
        rw [hv] at hkv
        have hk : k1 ∈ review_item_fields := hkeys _ hkv
        simp only [review_exclude_fields, List.mem_cons, List.not_mem_nil, or_false,
          not_or] at hex
        obtain ⟨he1, he2, he3, he4, he5⟩ := hex
        refine ⟨hkv, he3, he5, he4, he1, he2, ?_, ?_⟩
        · intro hc; rw [hc] at hk; exact absurd hk (by decide)
        · intro hc; rw [hc] at hk; exact absurd hk (by decide)

/-- C9 (witness): the frame property at a concrete fiction record and a
concrete review record. -/
theorem claim9_property_sets_witness :
    (("title", some (PropValue.str "T")) ∈ fictionItems9 ∧ "title" ≠ "fiction_id" ∧
      "title" ≠ "author_id" ∧ "title" ≠ "scraped_at" ∧ "title" ≠ "version" ∧
      "title" ≠ "created_at" ∧ "title" ≠ "updated_at") ∧
    (("review_title", some (PropValue.str "R")) ∈ reviewItems9 ∧
      "review_title" ≠ "review_id" ∧ "review_title" ≠ "fiction_id" ∧
      "review_title" ≠ "author_id" ∧ "review_title" ≠ "scraped_at" ∧
      "review_title" ≠ "version" ∧ "review_title" ≠ "created_at" ∧
      "review_title" ≠ "updated_at") :=
  ⟨claim9_property_sets.1 fictionItems9 (by decide) "title" (PropValue.str "T") (by decide),
    claim9_property_sets.2 reviewItems9 (by decide) "review_title" (PropValue.str "R")
      (by decide)⟩

/-- C10: the fiction-id-from-URL extractors use the pattern
`/fiction/(\d+)/`, whose digit group must be followed by a further slash:
for every absolute URL whose path is exactly `/fiction/{digits}` with no
trailing slash, both the loader's and the spider's extractor return
absent, even though the digits form a well-formed fiction identifier;
with a trailing slash the same digits are extracted. -/
theorem claim10_fiction_id_requires_trailing_slash (host ds : List Char)
    (hhost : ∀ c ∈ host, c ≠ '/' ∧ c ≠ ':')
    (hne : ds ≠ [])
    (hds : ∀ c ∈ ds, c.isDigit = true) :
    extract_fiction_id_from_url
      (some ⟨'h' :: 't' :: 't' :: 'p' :: 's' :: ':' :: '/' :: '/' ::
        (host ++ '/' :: ('f' :: 'i' :: 'c' :: 't' :: 'i' :: 'o' :: 'n' :: '/' :: ds))⟩) = none ∧
    spider_extract_fiction_id_from_url
      ⟨'h' :: 't' :: 't' :: 'p' :: 's' :: ':' :: '/' :: '/' ::
        (host ++ '/' :: ('f' :: 'i' :: 'c' :: 't' :: 'i' :: 'o' :: 'n' :: '/' :: ds))⟩ = none ∧
    extract_fiction_id_from_url
      (some ⟨'h' :: 't' :: 't' :: 'p' :: 's' :: ':' :: '/' :: '/' ::
        (host ++ '/' :: ('f' :: 'i' :: 'c' :: 't' :: 'i' :: 'o' :: 'n' :: '/' ::
          (ds ++ ['/'])))⟩) = some (digitsVal ds) := by
  have hq : ∀ c : Char, c.isDigit = true → c ≠ '?' ∧ c ≠ '#' := fun c hc =>
    ⟨digit_ne_of_lt hc (by decide), digit_ne_of_lt hc (by decide)⟩
  have hrest1 : ∀ c ∈ ('f' :: 'i' :: 'c' :: 't' :: 'i' :: 'o' :: 'n' :: '/' :: ds),
      c ≠ '?' ∧ c ≠ '#' := by
    intro c hc
    simp only [List.mem_cons] at hc
    rcases hc with rfl | rfl | rfl | rfl | rfl | rfl | rfl | rfl | hm
    · exact (by decide)
    · exact (by decide)
    · exact (by decide)
    · exact (by decide)
    · exact (by decide)
    · exact (by decide)
    · exact (by decide)
    · exact (by decide)
    · exact hq c (hds c hm)
  have hrest2 : ∀ c ∈ ('f' :: 'i' :: 'c' :: 't' :: 'i' :: 'o' :: 'n' :: '/' :: (ds ++ ['/'])),
      c ≠ '?' ∧ c ≠ '#' := by
    intro c hc
    simp only [List.mem_cons] at hc
    rcases hc with rfl | rfl | rfl | rfl | rfl | rfl | rfl | rfl | hm
    · exact (by decide)
    · exact (by decide)
    · exact (by decide)
    · exact (by decide)
    · exact (by decide)
    · exact (by decide)
    · exact (by decide)
    · exact (by decide)
    · rcases List.mem_append.mp hm with hm2 | hm2
      · exact hq c (hds c hm2)
      · rcases List.mem_singleton.mp hm2 with rfl
        exact (by decide)
  have hpath1 := urlPath_absolute hhost hrest1
  have hpath2 := urlPath_absolute hhost hrest2
  refine ⟨?_, ?_, ?_⟩
  · show (if (⟨'h' :: 't' :: 't' :: 'p' :: 's' :: ':' :: '/' :: '/' ::
      (host ++ '/' :: ('f' :: 'i' :: 'c' :: 't' :: 'i' :: 'o' :: 'n' :: '/' :: ds))⟩ :
        String) = "" then none
      else scanPatSlash fictionPat (urlPath ⟨'h' :: 't' :: 't' :: 'p' :: 's' :: ':' :: '/' ::
        '/' :: (host ++ '/' :: ('f' :: 'i' :: 'c' :: 't' :: 'i' :: 'o' :: 'n' :: '/' :: ds))⟩)) =
      none
    rw [if_neg (mkString_ne_empty (by simp)), hpath1]
    rw [show ('/' :: 'f' :: 'i' :: 'c' :: 't' :: 'i' :: 'o' :: 'n' :: '/' :: ds : List Char) =
      fictionPat ++ ds from rfl]
    exact scanPatSlash_fiction_no_trailing hds
  · rw [spider_extract_fiction_id_from_url, hpath1]
    rw [show ('/' :: 'f' :: 'i' :: 'c' :: 't' :: 'i' :: 'o' :: 'n' :: '/' :: ds : List Char) =
      fictionPat ++ ds from rfl]
    exact scanPatSlash_fiction_no_trailing hds
  · show (if (⟨'h' :: 't' :: 't' :: 'p' :: 's' :: ':' :: '/' :: '/' ::
      (host ++ '/' :: ('f' :: 'i' :: 'c' :: 't' :: 'i' :: 'o' :: 'n' :: '/' ::
        (ds ++ ['/'])))⟩ : String) = "" then none
      else scanPatSlash fictionPat (urlPath ⟨'h' :: 't' :: 't' :: 'p' :: 's' :: ':' :: '/' ::
        '/' :: (host ++ '/' :: ('f' :: 'i' :: 'c' :: 't' :: 'i' :: 'o' :: 'n' :: '/' ::
          (ds ++ ['/'])))⟩)) = some (digitsVal ds)
    rw [if_neg (mkString_ne_empty (by simp)), hpath2]
    rw [show ('/' :: 'f' :: 'i' :: 'c' :: 't' :: 'i' :: 'o' :: 'n' :: '/' :: (ds ++ ['/']) :
      List Char) = fictionPat ++ (ds ++ ['/']) from rfl]
    rw [← List.append_assoc]
    exact scanPatSlash_fiction_trailing hne hds

/-- C10 (witness): `https://www.royalroad.com/fiction/89034` yields no
fiction id, while `https://www.royalroad.com/fiction/89034/` yields
89034. -/
theorem claim10_fiction_id_requires_trailing_slash_witness :
    extract_fiction_id_from_url
      (some ⟨'h' :: 't' :: 't' :: 'p' :: 's' :: ':' :: '/' :: '/' ::
        (['w', 'w', 'w', '.', 'r', 'o', 'y', 'a', 'l', 'r', 'o', 'a', 'd', '.', 'c', 'o', 'm'] ++
          '/' :: ('f' :: 'i' :: 'c' :: 't' :: 'i' :: 'o' :: 'n' :: '/' ::
            ['8', '9', '0', '3', '4']))⟩) = none ∧
    spider_extract_fiction_id_from_url
      ⟨'h' :: 't' :: 't' :: 'p' :: 's' :: ':' :: '/' :: '/' ::
        (['w', 'w', 'w', '.', 'r', 'o', 'y', 'a', 'l', 'r', 'o', 'a', 'd', '.', 'c', 'o', 'm'] ++
          '/' :: ('f' :: 'i' :: 'c' :: 't' :: 'i' :: 'o' :: 'n' :: '/' ::
            ['8', '9', '0', '3', '4']))⟩ = none ∧
    extract_fiction_id_from_url
      (some ⟨'h' :: 't' :: 't' :: 'p' :: 's' :: ':' :: '/' :: '/' ::
        (['w', 'w', 'w', '.', 'r', 'o', 'y', 'a', 'l', 'r', 'o', 'a', 'd', '.', 'c', 'o', 'm'] ++
          '/' :: ('f' :: 'i' :: 'c' :: 't' :: 'i' :: 'o' :: 'n' :: '/' ::
            (['8', '9', '0', '3', '4'] ++ ['/'])))⟩) = some (digitsVal ['8', '9', '0', '3', '4']) :=
  claim10_fiction_id_requires_trailing_slash
    ['w', 'w', 'w', '.', 'r', 'o', 'y', 'a', 'l', 'r', 'o', 'a', 'd', '.', 'c', 'o', 'm']
    ['8', '9', '0', '3', '4'] (by decide) (by decide) (by decide)
